import Mathlib

/-!
Shallow embedding of the conversation-session lifecycle manager and the
retrieval-and-response orchestration pipeline of the oscars-wa-chatbot
repository (app/services/memory_service.py, app/services/chatbot.py,
app/models.py, app/config.py), together with theorems settling the
specification's claims about it.

Timestamps are integer seconds (the code compares `total_seconds()` of a
datetime difference against an integer timeout); `datetime.now()` becomes an
explicit `now : Int` argument.  Python dicts become association lists keeping
insertion order; the langchain `ConversationBufferMemory` objects stored in
`self.conversations` are modelled by key presence only (no claim touches
their buffer content).  Float arithmetic is modelled exactly over ℚ.
-/

namespace Chatbot

/-- app/config.py `Settings` — the fields the core consumes. -/
structure Settings where
  max_conversation_history : Nat
  conversation_timeout : Int
  deriving Repr, DecidableEq

/-- One entry of `ConversationState.messages`: a dict
`{"type": ..., "content": ..., "timestamp": ...}`. -/
structure Message where
  type : String
  content : String
  timestamp : Int
  deriving Repr, DecidableEq

/-- app/models.py `ConversationState` (the `session_id` field is never set by
the service and is omitted). -/
structure ConversationState where
  user_id : String
  messages : List Message
  last_activity : Int
  deriving Repr, DecidableEq

/-- `MemoryService` state: `self.conversations` (modelled by its key set, in
insertion order) and `self.conversation_states`. -/
structure MemoryService where
  settings : Settings
  conversations : List String
  conversation_states : List (String × ConversationState)
  deriving Repr, DecidableEq

/-- Python dict read `d.get(k)` / `k in d` over an insertion-ordered
association list. -/
def dictGet (l : List (String × ConversationState)) (k : String) :
    Option ConversationState :=
  (l.find? fun p => p.1 = k).map Prod.snd

/-- Python dict assignment `d[k] = v`: replaces the value of an existing key
in place, otherwise appends the new key at the end. -/
def dictSet (l : List (String × ConversationState)) (k : String)
    (v : ConversationState) : List (String × ConversationState) :=
  if l.any fun p => p.1 = k then
    l.map fun p => if p.1 = k then (k, v) else p
  else
    l ++ [(k, v)]

/-- Python `del d[k]`. -/
def dictDel (l : List (String × ConversationState)) (k : String) :
    List (String × ConversationState) :=
  l.filter fun p => p.1 ≠ k

/-- In-place mutation of one entry's value (`d[k].field = ...`). -/
def dictModify (l : List (String × ConversationState)) (k : String)
    (f : ConversationState → ConversationState) :
    List (String × ConversationState) :=
  l.map fun p => if p.1 = k then (p.1, f p.2) else p

/-- Key-set insert for `self.conversations[user_id] = memory`. -/
def keysAdd (l : List String) (k : String) : List String :=
  if k ∈ l then l else l ++ [k]

/-- Key-set delete for `del self.conversations[user_id]`. -/
def keysDel (l : List String) (k : String) : List String :=
  l.filter fun x => x ≠ k

/-- `MemoryService._is_conversation_active`: the session exists and
`(now - last_activity).total_seconds() < conversation_timeout`. -/
def is_conversation_active (svc : MemoryService) (now : Int)
    (user_id : String) : Bool :=
  match dictGet svc.conversation_states user_id with
  | none => false
  | some state => now - state.last_activity < svc.settings.conversation_timeout

/-- `MemoryService._cleanup_conversation`: deletes the user's entry from both
dicts. -/
def cleanup_conversation (svc : MemoryService) (user_id : String) :
    MemoryService :=
  { svc with
      conversations := keysDel svc.conversations user_id
      conversation_states := dictDel svc.conversation_states user_id }

/-- The fresh `ConversationState` built by `get_or_create_memory`. -/
def freshState (user_id : String) (now : Int) : ConversationState :=
  { user_id := user_id, messages := [], last_activity := now }

/-- `MemoryService.get_or_create_memory`, restricted to its effect on the
service state (the returned `ConversationBufferMemory` object is modelled by
the key's presence in `conversations`).  If the user's memory exists and the
conversation is active, nothing changes; otherwise an expired entry is
cleaned up and a fresh memory plus fresh `ConversationState` are installed. -/
def get_or_create_memory (svc : MemoryService) (now : Int)
    (user_id : String) : MemoryService :=
  if user_id ∈ svc.conversations ∧ is_conversation_active svc now user_id then
    svc
  else
    let svc1 :=
      if user_id ∈ svc.conversations then cleanup_conversation svc user_id
      else svc
    { svc1 with
        conversations := keysAdd svc1.conversations user_id
        conversation_states :=
          dictSet svc1.conversation_states user_id (freshState user_id now) }

/-- Python slice `l[-k:]` for `k ≥ 0`: the last `k` elements when `k > 0`,
but the WHOLE list when `k = 0` (since `l[-0:]` is `l[0:]`). -/
def pySliceLast {α : Type} (l : List α) (k : Nat) : List α :=
  if k = 0 then l else (l.reverse.take k).reverse

/-- The two `messages` entries one `add_message` call appends: the human
dict followed by the ai dict, both stamped with the call time. -/
def exchangeMsgs (now : Int) (human_message ai_response : String) :
    List Message :=
  [{ type := "human", content := human_message, timestamp := now },
   { type := "ai", content := ai_response, timestamp := now }]

/-- The state update `add_message` performs on the user's
`ConversationState`: append the human and ai entries, trim to the last
`max_conversation_history * 2` entries when over the cap, update
`last_activity`. -/
def appendExchange (M : Nat) (now : Int)
    (human_message ai_response : String) (state : ConversationState) :
    ConversationState :=
  let msgs := state.messages ++ exchangeMsgs now human_message ai_response
  let msgs := if msgs.length > M * 2 then pySliceLast msgs (M * 2) else msgs
  { state with messages := msgs, last_activity := now }

/-- `MemoryService.add_message`: ensures the session exists (expiring a stale
one), appends the human entry then the ai entry to `state.messages`, updates
`last_activity`, and trims to the last `max_conversation_history * 2` entries
when the list exceeds that cap.  Returns the new state and the `bool` result
(`True` — the except branch is unreachable in the model). -/
def add_message (svc : MemoryService) (now : Int) (user_id : String)
    (human_message : String) (ai_response : String) :
    MemoryService × Bool :=
  let svc1 := get_or_create_memory svc now user_id
  let svc2 :=
    if (svc1.conversation_states.any fun p => p.1 = user_id) then
      { svc1 with
          conversation_states := dictModify svc1.conversation_states user_id
            (appendExchange svc1.settings.max_conversation_history now
              human_message ai_response) }
    else svc1
  (svc2, true)

/-- `MemoryService.get_conversation_history`: returns `state.messages` for a
known user and `[]` otherwise.  It reads `conversation_states` only — it
neither tests expiry nor mutates the store. -/
def get_conversation_history (svc : MemoryService) (user_id : String) :
    List Message :=
  match dictGet svc.conversation_states user_id with
  | none => []
  | some state => state.messages

/-- `MemoryService.clear_conversation`: empties the messages and resets
`last_activity` for an existing state (leaving both dict entries present) and
returns `True`. -/
def clear_conversation (svc : MemoryService) (now : Int) (user_id : String) :
    MemoryService × Bool :=
  let svc1 :=
    if (svc.conversation_states.any fun p => p.1 = user_id) then
      { svc with
          conversation_states := dictModify svc.conversation_states user_id
            fun state => { state with messages := [], last_activity := now } }
    else svc
  (svc1, true)

/-- `MemoryService.cleanup_expired_conversations`: collects every user whose
conversation is no longer active and deletes each with
`_cleanup_conversation`. -/
def cleanup_expired_conversations (svc : MemoryService) (now : Int) :
    MemoryService :=
  let expired := (svc.conversation_states.map Prod.fst).filter
    fun u => ¬ is_conversation_active svc now u
  expired.foldl (fun s u => cleanup_conversation s u) svc

/-- `MemoryService.get_active_conversations_count`. -/
def get_active_conversations_count (svc : MemoryService) (now : Int) : Nat :=
  ((svc.conversation_states.map Prod.fst).filter
    fun u => is_conversation_active svc now u).length

/-- The dictionary returned by `MemoryService.get_conversation_summary`,
restricted to the fields the claims mention. -/
structure ConversationSummary where
  found : Bool
  message_count : Nat
  is_active : Bool
  deriving Repr, DecidableEq

/-- `MemoryService.get_conversation_summary`: `{"status": "not_found",
"message_count": 0}` for an unknown user, otherwise `message_count` is
`len(state.messages)`. -/
def get_conversation_summary (svc : MemoryService) (now : Int)
    (user_id : String) : ConversationSummary :=
  match dictGet svc.conversation_states user_id with
  | none => { found := false, message_count := 0, is_active := false }
  | some state =>
      { found := true
        message_count := state.messages.length
        is_active := is_conversation_active svc now user_id }

end Chatbot

namespace Chatbot

/-- A langchain `Document` as the chatbot consumes it: `page_content` plus
the optional `"source"` entry of its metadata dict. -/
structure Document where
  page_content : String
  metadata_source : Option String
  deriving Repr, DecidableEq

/-- The whitespace characters Python's `str.split()` (no argument) splits
on, restricted to ASCII. -/
def pyIsSpace (c : Char) : Bool :=
  c = ' ' ∨ c = '\t' ∨ c = '\n' ∨ c = '\r' ∨ c = '\x0b' ∨ c = '\x0c'

/-- Helper for `pySplit`: walks the characters, accumulating the current
token (reversed). -/
def pySplitAux : List Char → List Char → List String
  | [], acc => if acc.isEmpty then [] else [String.mk acc.reverse]
  | c :: cs, acc =>
      if pyIsSpace c then
        if acc.isEmpty then pySplitAux cs []
        else String.mk acc.reverse :: pySplitAux cs []
      else pySplitAux cs (c :: acc)

/-- Python `s.split()`: split on runs of whitespace, discarding empty
tokens. -/
def pySplit (s : String) : List String :=
  pySplitAux s.data []

/-- Python `set(tokens)` modelled as a deduplicated list. -/
def pySet (tokens : List String) : List String :=
  tokens.dedup

/-- `question_words = set(question.lower().split())`. -/
def questionWords (question : String) : List String :=
  pySet (pySplit question.toLower)

/-- `doc_words`: the union over documents of
`set(doc.page_content.lower().split())`. -/
def docWords (documents : List Document) : List String :=
  pySet (documents.flatMap fun doc => pySplit doc.page_content.toLower)

/-- `keyword_overlap = len(question_words.intersection(doc_words))`. -/
def keywordOverlap (documents : List Document) (question : String) : Nat :=
  ((questionWords question).filter fun w => w ∈ docWords documents).length

/-- `ChatbotService._calculate_confidence` over exact rationals:
`0.0` for no documents, otherwise
`min(0.95, min(0.8, 0.3 + len(documents)*0.1) + min(0.2, overlap*0.02))`
where `overlap` counts the lowercase whitespace-split tokens shared between
the question and the union of the documents' contents.  (The except branch
returning `0.5` is unreachable in the pure model.) -/
def calculate_confidence (documents : List Document) (question : String) :
    ℚ :=
  if documents.isEmpty then 0
  else
    min (95/100)
      (min (8/10) (3/10 + (documents.length : ℚ) * (1/10)) +
        min (2/10) ((keywordOverlap documents question : ℚ) * (2/100)))

/-- Modelled from the spec's §4.3 wording, for comparison with
`calculate_confidence`: `chunks` empty ⇒ `0.0`; otherwise
`min(0.95, base + boost)` with `base = min(0.8, 0.3 + 0.1 × |chunks|)` and
`boost = min(0.2, 0.02 × overlap)`, `overlap` the number of lowercase
whitespace-split tokens shared between query and the union of chunk texts. -/
def scoreSpec (chunks : List Document) (query : String) : ℚ :=
  if chunks = [] then 0
  else
    min (95/100)
      (min (8/10) (3/10 + (1/10) * (chunks.length : ℚ)) +
        min (2/10) ((2/100) *
          (((pySplit query.toLower).dedup.filter fun w =>
            w ∈ (chunks.flatMap fun c =>
              pySplit c.page_content.toLower).dedup).length : ℚ)))

/-- app/models.py `ChatResponse` (`confidence` and `sources` are optional and
omitted by some construction sites). -/
structure ChatResponse where
  response : String
  confidence : Option ℚ
  sources : Option (List String)
  deriving Repr, DecidableEq

/-- The observable store/collaborator actions `process_message` performs, in
order. -/
inductive Event where
  | historyRead
  | retrieverCall
  | generatorCall
  | append (human ai : String)
  | sweep
  deriving Repr, DecidableEq

/-- `ChatbotService` state relevant to the claims: the `is_initialized` flag
and the owned `MemoryService`. -/
structure ChatbotService where
  is_initialized : Bool
  memory_service : MemoryService
  deriving Repr, DecidableEq

/-- `ChatbotService._format_chat_history`. -/
def format_chat_history (chat_history : List (String × String)) : String :=
  if chat_history.isEmpty then "No previous conversation."
  else
    String.intercalate "\n"
      (chat_history.flatMap fun exch =>
        ["Human: " ++ exch.1, "Assistant: " ++ exch.2])

/-- Helper for `get_formatted_chat_history`: pairs up the flat message list
two at a time (`for i in range(0, len(history), 2)` keeping `i+1 < len`). -/
def pairUp : List Message → List (String × String)
  | h :: a :: rest => (h.content, a.content) :: pairUp rest
  | _ => []

/-- `ChatbotService._get_formatted_chat_history`: pairs consecutive stored
messages into (human, ai) exchanges and keeps the last 5. -/
def get_formatted_chat_history (svc : MemoryService) (user_id : String) :
    List (String × String) :=
  let history := get_conversation_history svc user_id
  let formatted_history := pairUp history
  pySliceLast formatted_history 5

/-- The fixed reply of `process_message` when the service is not
initialized. -/
def unavailableText : String :=
  "I'm sorry, but I'm currently not available. Please try again later."

/-- The degraded reply `_generate_response_with_context` returns when the
generator raises. -/
def groundedErrorText : String :=
  "I'm sorry, I couldn't generate a proper response."

/-- The basic reply `_generate_fallback_response` returns when the generator
raises. -/
def fallbackErrorText : String :=
  "I don't have specific information about that in my product knowledge base. Could you please ask about our product features, specifications, or services?"

/-- `ChatbotService._generate_response_with_context`: one generator call on
the grounded prompt.  `generator = some text` models a successful
`chat_model.ainvoke`; `none` models it raising, caught by the except branch
which returns the degraded triple.  Sources are each document's
`metadata.get("source", "Unknown")`, deduplicated by `list(set(...))`. -/
def generate_response_with_context (generator : Option String)
    (question : String) (documents : List Document) :
    String × ℚ × List String :=
  match generator with
  | some text =>
      let sources := pySet (documents.map fun doc =>
        doc.metadata_source.getD "Unknown")
      (text.trim, calculate_confidence documents question, sources)
  | none => (groundedErrorText, 0, [])

/-- `ChatbotService._generate_fallback_response`: one generator call on the
fallback prompt; if it raises, the basic fallback string is returned. -/
def generate_fallback_response (generator : Option String) : String :=
  match generator with
  | some text => text.trim
  | none => fallbackErrorText

/-- `ChatbotService.process_message`.  External collaborators are passed as
oracles: `retriever = some docs` models `search_documents` succeeding with
`docs` (that function catches its own errors and returns `[]`, modelled by
`retriever = none`); `generator` is the outcome of the single
`chat_model.ainvoke` call the taken path performs.  Returns the
`ChatResponse`, the post-state, and the ordered trace of store/collaborator
events. -/
def process_message (svc : ChatbotService) (now : Int) (user_id : String)
    (message : String) (retriever : Option (List Document))
    (generator : Option String) :
    ChatResponse × ChatbotService × List Event :=
  if ¬ svc.is_initialized then
    ({ response := unavailableText, confidence := some 0, sources := none },
     svc, [])
  else
    let chat_history := get_formatted_chat_history svc.memory_service user_id
    let relevant_docs := retriever.getD []
    let rcs :=
      if relevant_docs.isEmpty then
        (generate_fallback_response generator, (3/10 : ℚ), ([] : List String))
      else
        generate_response_with_context generator message relevant_docs
    let response_text := rcs.1
    let confidence := rcs.2.1
    let sources := rcs.2.2
    let mem1 := (add_message svc.memory_service now user_id message
      response_text).1
    let mem2 := cleanup_expired_conversations mem1 now
    let _ := chat_history
    ({ response := response_text, confidence := some confidence,
       sources := some sources },
     { svc with memory_service := mem2 },
     [Event.historyRead, Event.retrieverCall, Event.generatorCall,
      Event.append message response_text, Event.sweep])

end Chatbot

namespace Chatbot

/-- A `MemoryService` as constructed by `MemoryService.__init__`: given
settings, both dicts empty. -/
def initService (settings : Settings) : MemoryService :=
  { settings := settings, conversations := [], conversation_states := [] }

/-- The last `k` elements of a list (Python `l[-k:]` for `k > 0`). -/
def takeLast {α : Type} (l : List α) (k : Nat) : List α :=
  (l.reverse.take k).reverse

/-- The flat message list produced by a sequence of
`(time, human, ai)` append calls with no trimming. -/
def allMsgs (l : List (Int × String × String)) : List Message :=
  l.flatMap fun x => exchangeMsgs x.1 x.2.1 x.2.2

/-- Iterates `add_message` over a list of `(time, human, ai)` calls for one
user. -/
def runAppends (svc : MemoryService) (user_id : String) :
    List (Int × String × String) → MemoryService
  | [] => svc
  | (t, h, a) :: rest =>
      runAppends (add_message svc t user_id h a).1 user_id rest

/-- The public mutating operations of `MemoryService`, for stating
invariants over all reachable service states. -/
inductive StoreOp where
  | addMsg (now : Int) (user_id human_message ai_response : String)
  | clearConv (now : Int) (user_id : String)
  | sweepExpired (now : Int)
  | getOrCreate (now : Int) (user_id : String)
  deriving Repr, DecidableEq

/-- Interpretation of one `StoreOp`. -/
def runOp (svc : MemoryService) : StoreOp → MemoryService
  | .addMsg now u h a => (add_message svc now u h a).1
  | .clearConv now u => (clear_conversation svc now u).1
  | .sweepExpired now => cleanup_expired_conversations svc now
  | .getOrCreate now u => get_or_create_memory svc now u

/-- Interpretation of a sequence of `StoreOp`s from a start state. -/
def runOps (svc : MemoryService) (ops : List StoreOp) : MemoryService :=
  ops.foldl runOp svc

/-- Every stored message list in the service has even length. -/
def EvenStore (svc : MemoryService) : Prop :=
  ∀ p ∈ svc.conversation_states, Even p.2.messages.length

/-- Default-like settings: `max_conversation_history = 20`,
`conversation_timeout = 1800`. -/
def settingsEx : Settings :=
  { max_conversation_history := 20, conversation_timeout := 1800 }

/-- Settings with `max_conversation_history = 0`, a legal integer
configuration value. -/
def settingsZero : Settings :=
  { max_conversation_history := 0, conversation_timeout := 1800 }

/-- A service state reached by one exchange appended at time 0. -/
def svcC1 : MemoryService :=
  (add_message (initService settingsEx) 0 "u" "hello" "hi there").1

/-- An initialized chatbot over an empty memory service. -/
def cbEx : ChatbotService :=
  { is_initialized := true, memory_service := initService settingsEx }

/-- A chatbot whose initialization has not completed. -/
def cbUninit : ChatbotService :=
  { is_initialized := false, memory_service := initService settingsEx }

/-- A concrete retrieved document. -/
def docEx : Document :=
  { page_content := "refund policy details", metadata_source := some "product.pdf" }

end Chatbot


namespace Chatbot

theorem dictGet_nil (k : String) : dictGet [] k = none := rfl

theorem dictGet_cons (p : String × ConversationState)
    (l : List (String × ConversationState)) (k : String) :
    dictGet (p :: l) k = if p.1 = k then some p.2 else dictGet l k := by
  by_cases h : p.1 = k
  · simp [dictGet, List.find?_cons_of_pos, h]
  · simp [dictGet, List.find?_cons_of_neg, h]

theorem dictGet_dictModify_self
    (l : List (String × ConversationState)) (k : String)
    (f : ConversationState → ConversationState) :
    dictGet (dictModify l k f) k = (dictGet l k).map f := by
  induction l with
  | nil => rfl
  | cons p l ih =>
      by_cases h : p.1 = k
      · simp [dictModify, dictGet_cons, h]
      · simpa [dictModify, dictGet_cons, h] using ih

theorem dictModify_cons (p : String × ConversationState)
    (l : List (String × ConversationState)) (k : String)
    (f : ConversationState → ConversationState) :
    dictModify (p :: l) k f =
      (if p.1 = k then (p.1, f p.2) else p) :: dictModify l k f := rfl

theorem dictDel_cons (p : String × ConversationState)
    (l : List (String × ConversationState)) (k : String) :
    dictDel (p :: l) k =
      if p.1 = k then dictDel l k else p :: dictDel l k := by
  by_cases h : p.1 = k <;> simp [dictDel, List.filter_cons, h]

theorem dictGet_dictModify_ne
    (l : List (String × ConversationState)) (k v : String)
    (f : ConversationState → ConversationState) (h : v ≠ k) :
    dictGet (dictModify l k f) v = dictGet l v := by
  induction l with
  | nil => rfl
  | cons p l ih =>
      by_cases hp : p.1 = k
      · have hkv : ¬((k : String) = v) := fun e => h e.symm
        simp [dictModify_cons, dictGet_cons, hp, hkv]
        exact ih
      · simp only [dictModify_cons, if_neg hp, dictGet_cons]
        rw [ih]

theorem dictGet_dictDel_self
    (l : List (String × ConversationState)) (k : String) :
    dictGet (dictDel l k) k = none := by
  induction l with
  | nil => rfl
  | cons p l ih =>
      by_cases h : p.1 = k
      · simpa [dictDel, h] using ih
      · simpa [dictDel, dictGet_cons, h] using ih

theorem dictGet_dictDel_ne
    (l : List (String × ConversationState)) (k v : String) (h : v ≠ k) :
    dictGet (dictDel l k) v = dictGet l v := by
  induction l with
  | nil => rfl
  | cons p l ih =>
      by_cases hp : p.1 = k
      · rw [dictDel_cons, if_pos hp, dictGet_cons]
        have hkv : ¬(p.1 = v) := by rw [hp]; exact fun e => h e.symm
        rw [if_neg hkv]
        exact ih
      · rw [dictDel_cons, if_neg hp, dictGet_cons, dictGet_cons, ih]

theorem dictGet_map_replace_self
    (l : List (String × ConversationState)) (k : String)
    (v : ConversationState) (h : (l.any fun p => p.1 = k) = true) :
    dictGet (l.map fun p => if p.1 = k then (k, v) else p) k = some v := by
  induction l with
  | nil => simp at h
  | cons p l ih =>
      by_cases hp : p.1 = k
      · simp [dictGet_cons, hp]
      · simp only [List.any_cons, hp, Bool.or_eq_true, decide_eq_true_eq,
          false_or] at h
        simpa [dictGet_cons, hp] using ih (by simpa using h)

theorem dictGet_append_single_self
    (l : List (String × ConversationState)) (k : String)
    (v : ConversationState) (h : (l.any fun p => p.1 = k) = false) :
    dictGet (l ++ [(k, v)]) k = some v := by
  induction l with
  | nil => simp [dictGet_cons]
  | cons p l ih =>
      simp only [List.any_cons, Bool.or_eq_false_iff, decide_eq_false_iff_not]
        at h
      rw [List.cons_append, dictGet_cons, if_neg h.1]
      exact ih h.2

theorem dictGet_map_replace_ne
    (l : List (String × ConversationState)) (k u : String)
    (v : ConversationState) (h : u ≠ k) :
    dictGet (l.map fun p => if p.1 = k then (k, v) else p) u = dictGet l u := by
  induction l with
  | nil => rfl
  | cons p l ih =>
      by_cases hp : p.1 = k
      · have hku : k ≠ u := fun e => h e.symm
        simp [dictGet_cons, hp, hku, ih]
      · simp [dictGet_cons, hp, ih]

theorem dictGet_append_single_ne
    (l : List (String × ConversationState)) (k u : String)
    (v : ConversationState) (h : u ≠ k) :
    dictGet (l ++ [(k, v)]) u = dictGet l u := by
  induction l with
  | nil =>
      have hku : ¬((k : String) = u) := fun e => h e.symm
      simp [dictGet_cons, hku]
  | cons p l ih =>
      rw [List.cons_append, dictGet_cons, dictGet_cons, ih]

theorem dictGet_dictSet_self
    (l : List (String × ConversationState)) (k : String)
    (v : ConversationState) :
    dictGet (dictSet l k v) k = some v := by
  unfold dictSet
  by_cases hany : (l.any fun p => p.1 = k) = true
  · rw [if_pos hany]; exact dictGet_map_replace_self l k v hany
  · rw [if_neg hany]
    exact dictGet_append_single_self l k v
      (by simpa only [Bool.not_eq_true] using hany)

theorem dictGet_dictSet_ne
    (l : List (String × ConversationState)) (k u : String)
    (v : ConversationState) (h : u ≠ k) :
    dictGet (dictSet l k v) u = dictGet l u := by
  unfold dictSet
  by_cases hany : (l.any fun p => p.1 = k) = true
  · rw [if_pos hany]; exact dictGet_map_replace_ne l k u v h
  · rw [if_neg hany]; exact dictGet_append_single_ne l k u v h

end Chatbot

namespace Chatbot

theorem takeLast_length {α : Type} (l : List α) (k : Nat) :
    (takeLast l k).length = min k l.length := by
  simp [takeLast]

theorem takeLast_of_length_le {α : Type} (l : List α) (k : Nat)
    (h : l.length ≤ k) : takeLast l k = l := by
  unfold takeLast
  rw [List.take_of_length_le (by simpa using h), List.reverse_reverse]

theorem take_append_take {α : Type} (a b : List α) (k : Nat) :
    (a ++ b.take k).take k = (a ++ b).take k := by
  rw [List.take_append_eq_append_take, List.take_append_eq_append_take,
    List.take_take, Nat.min_eq_left (Nat.sub_le k a.length)]

theorem takeLast_append_takeLast {α : Type} (l xs : List α) (k : Nat) :
    takeLast (takeLast l k ++ xs) k = takeLast (l ++ xs) k := by
  unfold takeLast
  rw [List.reverse_append, List.reverse_reverse, List.reverse_append,
    take_append_take]

theorem pySliceLast_eq_takeLast {α : Type} (l : List α) (k : Nat)
    (h : k ≠ 0) : pySliceLast l k = takeLast l k := by
  simp [pySliceLast, takeLast, h]

theorem any_key_of_dictGet_some
    (l : List (String × ConversationState)) (u : String)
    (st : ConversationState) (h : dictGet l u = some st) :
    (l.any fun p => p.1 = u) = true := by
  unfold dictGet at h
  cases hf : l.find? (fun p => p.1 = u) with
  | none => rw [hf] at h; simp at h
  | some q =>
      rw [List.any_eq_true]
      exact ⟨q, List.mem_of_find?_eq_some hf,
        by simpa using List.find?_some hf⟩

theorem mem_key_of_dictGet_some
    (l : List (String × ConversationState)) (u : String)
    (st : ConversationState) (h : dictGet l u = some st) :
    ∃ q ∈ l, q.1 = u ∧ q.2 = st := by
  unfold dictGet at h
  cases hf : l.find? (fun p => p.1 = u) with
  | none => rw [hf] at h; simp at h
  | some q =>
      rw [hf] at h
      refine ⟨q, List.mem_of_find?_eq_some hf, ?_, ?_⟩
      · simpa using List.find?_some hf
      · simpa using h

end Chatbot

namespace Chatbot

theorem is_conversation_active_true_of
    (svc : MemoryService) (now : Int) (u : String) (st : ConversationState)
    (hget : dictGet svc.conversation_states u = some st)
    (hact : now - st.last_activity < svc.settings.conversation_timeout) :
    is_conversation_active svc now u = true := by
  unfold is_conversation_active
  rw [hget]
  simpa using hact

theorem is_conversation_active_false_of
    (svc : MemoryService) (now : Int) (u : String) (st : ConversationState)
    (hget : dictGet svc.conversation_states u = some st)
    (hexp : svc.settings.conversation_timeout ≤ now - st.last_activity) :
    is_conversation_active svc now u = false := by
  unfold is_conversation_active
  rw [hget]
  simpa using not_lt.mpr hexp

theorem get_or_create_memory_active
    (svc : MemoryService) (now : Int) (u : String) (st : ConversationState)
    (hconv : u ∈ svc.conversations)
    (hget : dictGet svc.conversation_states u = some st)
    (hact : now - st.last_activity < svc.settings.conversation_timeout) :
    get_or_create_memory svc now u = svc := by
  unfold get_or_create_memory
  rw [if_pos]
  exact ⟨hconv, is_conversation_active_true_of svc now u st hget hact⟩

theorem get_or_create_memory_absent
    (svc : MemoryService) (now : Int) (u : String)
    (hconv : u ∉ svc.conversations) :
    get_or_create_memory svc now u =
      { svc with
          conversations := keysAdd svc.conversations u
          conversation_states :=
            dictSet svc.conversation_states u (freshState u now) } := by
  unfold get_or_create_memory
  rw [if_neg (by intro hc; exact hconv hc.1), if_neg hconv]

theorem add_message_active
    (svc : MemoryService) (now : Int) (u hm ar : String)
    (st : ConversationState)
    (hconv : u ∈ svc.conversations)
    (hget : dictGet svc.conversation_states u = some st)
    (hact : now - st.last_activity < svc.settings.conversation_timeout) :
    (add_message svc now u hm ar).1 =
      { svc with
          conversation_states := dictModify svc.conversation_states u
            (appendExchange svc.settings.max_conversation_history now
              hm ar) } := by
  simp only [add_message]
  rw [get_or_create_memory_active svc now u st hconv hget hact,
    if_pos (any_key_of_dictGet_some _ _ _ hget)]

theorem add_message_absent
    (svc : MemoryService) (now : Int) (u hm ar : String)
    (hconv : u ∉ svc.conversations) :
    dictGet (add_message svc now u hm ar).1.conversation_states u =
      some (appendExchange svc.settings.max_conversation_history now hm ar
        (freshState u now)) ∧
    u ∈ (add_message svc now u hm ar).1.conversations ∧
    (add_message svc now u hm ar).1.settings = svc.settings := by
  simp only [add_message]
  rw [get_or_create_memory_absent svc now u hconv]
  have hfresh : dictGet
      (dictSet svc.conversation_states u (freshState u now)) u =
      some (freshState u now) :=
    dictGet_dictSet_self svc.conversation_states u (freshState u now)
  simp only []
  rw [if_pos (any_key_of_dictGet_some _ _ _ hfresh)]
  refine ⟨?_, ?_, rfl⟩
  · rw [dictGet_dictModify_self, hfresh]
    rfl
  · unfold keysAdd
    by_cases hu : u ∈ svc.conversations
    · simp [hu]
    · simp [hu]

end Chatbot

namespace Chatbot

theorem allMsgs_cons (t : Int) (hm ar : String)
    (rest : List (Int × String × String)) :
    allMsgs ((t, hm, ar) :: rest) = exchangeMsgs t hm ar ++ allMsgs rest := by
  simp [allMsgs]

theorem appendExchange_eq (M : Nat) (now : Int) (hm ar : String)
    (st : ConversationState) :
    appendExchange M now hm ar st =
      { st with
          messages :=
            if (st.messages ++ exchangeMsgs now hm ar).length > M * 2 then
              pySliceLast (st.messages ++ exchangeMsgs now hm ar) (M * 2)
            else st.messages ++ exchangeMsgs now hm ar
          last_activity := now } := rfl

theorem runAppends_invariant
    (l : List (Int × String × String)) (u : String) :
    ∀ (svc : MemoryService) (st : ConversationState) (prev : List Message),
    1 ≤ svc.settings.max_conversation_history →
    u ∈ svc.conversations →
    dictGet svc.conversation_states u = some st →
    st.messages = takeLast prev (svc.settings.max_conversation_history * 2) →
    List.Chain' (fun x y => y - x < svc.settings.conversation_timeout)
      (st.last_activity :: l.map Prod.fst) →
    ∃ st', dictGet (runAppends svc u l).conversation_states u = some st' ∧
      st'.messages =
        takeLast (prev ++ allMsgs l)
          (svc.settings.max_conversation_history * 2) ∧
      (runAppends svc u l).settings = svc.settings := by
  induction l with
  | nil =>
      intro svc st prev _ _ hget hmsgs _
      exact ⟨st, hget, by simpa [allMsgs] using hmsgs, rfl⟩
  | cons x rest ih =>
      obtain ⟨t, hm, ar⟩ := x
      intro svc st prev hM hconv hget hmsgs hchain
      simp only [List.map_cons] at hchain
      have hrel := (List.chain'_cons.mp hchain).1
      have htail := (List.chain'_cons.mp hchain).2
      have hstep := add_message_active svc t u hm ar st hconv hget hrel
      have hrun : runAppends svc u ((t, hm, ar) :: rest) =
          runAppends (add_message svc t u hm ar).1 u rest := rfl
      set svc' := (add_message svc t u hm ar).1 with hsvc'
      have hsettings : svc'.settings = svc.settings := by rw [hstep]
      have hconv' : u ∈ svc'.conversations := by rw [hstep]; exact hconv
      have h2M : svc.settings.max_conversation_history * 2 ≠ 0 := by omega
      have hget' : dictGet svc'.conversation_states u =
          some { st with
                   messages :=
                     takeLast (st.messages ++ exchangeMsgs t hm ar)
                       (svc.settings.max_conversation_history * 2)
                   last_activity := t } := by
        rw [hstep]
        simp only [dictGet_dictModify_self, hget, Option.map_some',
          appendExchange_eq]
        by_cases hlen : (st.messages ++ exchangeMsgs t hm ar).length >
            svc.settings.max_conversation_history * 2
        · rw [if_pos hlen, pySliceLast_eq_takeLast _ _ h2M]
        · rw [if_neg hlen,
            takeLast_of_length_le _ _ (le_of_not_lt hlen)]
      have hmsgs' :
          takeLast (st.messages ++ exchangeMsgs t hm ar)
              (svc.settings.max_conversation_history * 2) =
            takeLast (prev ++ exchangeMsgs t hm ar)
              (svc.settings.max_conversation_history * 2) := by
        rw [hmsgs, takeLast_append_takeLast]
      obtain ⟨st', hst'get, hst'msgs, hst'settings⟩ :=
        ih svc' _ (prev ++ exchangeMsgs t hm ar)
          (by rw [hsettings]; exact hM) hconv'
          (by rw [hget', hmsgs'])
          (by rw [hsettings])
          (by
            rw [hsettings]
            simpa using htail)
      refine ⟨st', ?_, ?_, ?_⟩
      · rw [hrun]; exact hst'get
      · rw [hst'msgs, hsettings, List.append_assoc, allMsgs_cons]
      · rw [hrun, hst'settings, hsettings]

end Chatbot

namespace Chatbot

theorem allMsgs_length (l : List (Int × String × String)) :
    (allMsgs l).length = 2 * l.length := by
  induction l with
  | nil => rfl
  | cons x rest ih =>
      obtain ⟨t, hm, ar⟩ := x
      simp [allMsgs_cons, ih, exchangeMsgs]
      omega

theorem appendExchange_fresh (M : Nat) (hM : 1 ≤ M) (t : Int)
    (hm ar u : String) :
    appendExchange M t hm ar (freshState u t) =
      { user_id := u, messages := exchangeMsgs t hm ar
        last_activity := t } := by
  rw [appendExchange_eq]
  have hcond :
      ¬ (((freshState u t).messages ++ exchangeMsgs t hm ar).length >
        M * 2) := by
    show ¬ (2 > M * 2)
    omega
  rw [if_neg hcond]
  rfl

/-- Claim C5 (amended): starting from an empty store, for every sequence of
`N` `add_message` calls for one user whose consecutive call times stay within
`conversation_timeout`, and `max_conversation_history = M ≥ 1`, the stored
message list equals the last `min(N, M)` exchanges of the appended sequence
in insertion order (oldest dropped first), i.e. `2 * min(N, M)` entries.  The
`M ≥ 1` hypothesis is forced: for `M = 0` the trimming slice `l[-0:]` is the
whole list and nothing is ever dropped. -/
theorem claim_C5_capacity (M : Nat) (timeout : Int) (u : String)
    (l : List (Int × String × String))
    (hM : 1 ≤ M)
    (hchain : List.Chain' (fun x y => y.1 - x.1 < timeout) l) :
    get_conversation_history
        (runAppends (initService ⟨M, timeout⟩) u l) u =
      takeLast (allMsgs l) (M * 2) ∧
    (get_conversation_history
        (runAppends (initService ⟨M, timeout⟩) u l) u).length =
      2 * min l.length M := by
  cases l with
  | nil =>
      constructor
      · simp [get_conversation_history, runAppends, initService, dictGet,
          allMsgs, takeLast]
      · simp [get_conversation_history, runAppends, initService, dictGet]
  | cons x rest =>
      obtain ⟨t, hm, ar⟩ := x
      obtain ⟨hget1, hconv1, hsettings1⟩ :=
        add_message_absent (initService ⟨M, timeout⟩) t u hm ar
          (by simp [initService])
      set svc1 := (add_message (initService ⟨M, timeout⟩) t u hm ar).1
        with hsvc1
      have hsett : svc1.settings = ⟨M, timeout⟩ := hsettings1
      have hex2 : (exchangeMsgs t hm ar).length = 2 := rfl
      have hMconv :
          (initService ⟨M, timeout⟩).settings.max_conversation_history = M :=
        rfl
      rw [hMconv, appendExchange_fresh M hM t hm ar u] at hget1
      have hchain1 :
          List.Chain' (fun x y => y - x < svc1.settings.conversation_timeout)
            (t :: rest.map Prod.fst) := by
        rw [hsett]
        have h2 : List.Chain' (fun a b : Int => b - a < timeout)
            (((t, hm, ar) :: rest).map Prod.fst) := by
          rw [List.chain'_map]
          exact hchain
        simpa using h2
      obtain ⟨st', hget', hmsgs', hsett'⟩ :=
        runAppends_invariant rest u svc1
          { user_id := u, messages := exchangeMsgs t hm ar
            last_activity := t }
          (exchangeMsgs t hm ar)
          (by rw [hsett]; exact hM)
          hconv1 hget1
          (by
            rw [hsett]
            exact (takeLast_of_length_le _ _
              (by show (2 : Nat) ≤ M * 2; omega)).symm)
          hchain1
      have hrun : runAppends (initService ⟨M, timeout⟩) u
          ((t, hm, ar) :: rest) = runAppends svc1 u rest := rfl
      have hhist : get_conversation_history
          (runAppends (initService ⟨M, timeout⟩) u ((t, hm, ar) :: rest)) u =
          st'.messages := by
        rw [hrun]
        unfold get_conversation_history
        rw [hget']
      constructor
      · rw [hhist, hmsgs', hsett, allMsgs_cons]
      · rw [hhist, hmsgs', hsett, takeLast_length, List.length_append,
          allMsgs_length, hex2]
        show min (M * 2) (2 + 2 * rest.length) = 2 * min (rest.length + 1) M
        omega

/-- Claim C5 counterexample: with `max_conversation_history = 0`, one append
(within any timeout) leaves 2 stored entries — one whole exchange — while the
claim demands `min(1, 0) = 0` exchanges; Python `l[-0:]` keeps the whole
list, so the cap is never enforced at `M = 0`. -/
theorem claim_C5_counterexample :
    (get_conversation_history
        (runAppends (initService settingsZero) "u" [(0, "hi", "yo")])
        "u").length = 2 ∧
    (2 : Nat) ≠ 2 * min 1 settingsZero.max_conversation_history := by
  constructor
  · rfl
  · decide

/-- Witness for the amended capacity claim at `M = 1`, two appends: the
older exchange is dropped, one exchange remains. -/
theorem claim_C5_capacity_witness :
    get_conversation_history
        (runAppends (initService ⟨1, 10⟩) "u" [(0, "a", "b"), (1, "c", "d")])
        "u" =
      takeLast (allMsgs [(0, "a", "b"), (1, "c", "d")]) (1 * 2) ∧
    (get_conversation_history
        (runAppends (initService ⟨1, 10⟩) "u"
          [(0, "a", "b"), (1, "c", "d")]) "u").length =
      2 * min ([(0, "a", "b"), (1, "c", "d")] :
        List (Int × String × String)).length 1 :=
  claim_C5_capacity 1 10 "u" [(0, "a", "b"), (1, "c", "d")]
    (by decide)
    (by
      rw [List.chain'_cons]
      exact ⟨by norm_num, List.chain'_singleton _⟩)

end Chatbot

namespace Chatbot

theorem cleanup_conversation_none_preserved
    (svc : MemoryService) (v u : String)
    (h : dictGet svc.conversation_states u = none) :
    dictGet (cleanup_conversation svc v).conversation_states u = none := by
  show dictGet (dictDel svc.conversation_states v) u = none
  by_cases huv : u = v
  · subst huv; exact dictGet_dictDel_self _ _
  · rw [dictGet_dictDel_ne _ _ _ huv]; exact h

theorem foldl_cleanup_none (users : List String) :
    ∀ (svc : MemoryService) (u : String),
    dictGet svc.conversation_states u = none →
    dictGet ((users.foldl (fun s v => cleanup_conversation s v)
        svc)).conversation_states u = none := by
  induction users with
  | nil => intro svc u h; exact h
  | cons v rest ih =>
      intro svc u h
      exact ih (cleanup_conversation svc v) u
        (cleanup_conversation_none_preserved svc v u h)

theorem foldl_cleanup_mem_none (users : List String) :
    ∀ (svc : MemoryService) (u : String), u ∈ users →
    dictGet ((users.foldl (fun s v => cleanup_conversation s v)
        svc)).conversation_states u = none := by
  induction users with
  | nil => intro _ _ h; cases h
  | cons v rest ih =>
      intro svc u hu
      rcases List.mem_cons.mp hu with heq | hmem
      · subst heq
        exact foldl_cleanup_none rest (cleanup_conversation svc u) u
          (by
            show dictGet (dictDel svc.conversation_states u) u = none
            exact dictGet_dictDel_self _ _)
      · exact ih (cleanup_conversation svc v) u hmem

/-- Claim C1 counterexample: after one exchange appended at time 0 with
`conversation_timeout = 1800`, the session is expired at time 1800, yet
`get_conversation_history` still returns the stored exchange — it is a pure
read that neither tests expiry nor deletes the entry. -/
theorem claim_C1_counterexample :
    is_conversation_active svcC1 1800 "u" = false ∧
    get_conversation_history svcC1 "u" =
      [{ type := "human", content := "hello", timestamp := 0 },
       { type := "ai", content := "hi there", timestamp := 0 }] ∧
    get_conversation_history svcC1 "u" ≠ [] ∧
    dictGet svcC1.conversation_states "u" ≠ none := by
  refine ⟨rfl, rfl, ?_, ?_⟩
  · decide
  · decide

/-- Claim C1 (amended): for a session expired at access time,
`get_conversation_history` returns the stored messages unchanged (no expiry
check, no deletion); the delete-on-access happens only in
`get_or_create_memory` (which replaces the entry by a fresh empty state) and
in the eager sweep `cleanup_expired_conversations` (which removes it). -/
theorem claim_C1_expiry (svc : MemoryService) (now : Int) (u : String)
    (st : ConversationState)
    (hget : dictGet svc.conversation_states u = some st)
    (hexp : svc.settings.conversation_timeout ≤ now - st.last_activity) :
    get_conversation_history svc u = st.messages ∧
    dictGet (get_or_create_memory svc now u).conversation_states u =
      some (freshState u now) ∧
    dictGet (cleanup_expired_conversations svc now).conversation_states u =
      none := by
  have hfalse := is_conversation_active_false_of svc now u st hget hexp
  refine ⟨?_, ?_, ?_⟩
  · unfold get_conversation_history
    rw [hget]
  · unfold get_or_create_memory
    have hncond : ¬(u ∈ svc.conversations ∧
        is_conversation_active svc now u = true) := by
      rintro ⟨_, hh⟩
      rw [hfalse] at hh
      cases hh
    rw [if_neg hncond]
    show dictGet (dictSet
      (if u ∈ svc.conversations then cleanup_conversation svc u
        else svc).conversation_states u (freshState u now)) u =
      some (freshState u now)
    exact dictGet_dictSet_self _ _ _
  · unfold cleanup_expired_conversations
    apply foldl_cleanup_mem_none
    rw [List.mem_filter]
    constructor
    · obtain ⟨q, hqmem, hq1, _⟩ := mem_key_of_dictGet_some _ _ _ hget
      exact hq1 ▸ List.mem_map_of_mem Prod.fst hqmem
    · simp [hfalse]

/-- Witness for the amended expiry claim at the concrete expired state
`svcC1` at time 1800. -/
theorem claim_C1_expiry_witness :
    get_conversation_history svcC1 "u" =
      [{ type := "human", content := "hello", timestamp := 0 },
       { type := "ai", content := "hi there", timestamp := 0 }] ∧
    dictGet (get_or_create_memory svcC1 1800 "u").conversation_states "u" =
      some (freshState "u" 1800) ∧
    dictGet
        (cleanup_expired_conversations svcC1 1800).conversation_states "u" =
      none :=
  claim_C1_expiry svcC1 1800 "u"
    { user_id := "u"
      messages :=
        [{ type := "human", content := "hello", timestamp := 0 },
         { type := "ai", content := "hi there", timestamp := 0 }]
      last_activity := 0 }
    (by decide) (by decide)

end Chatbot

namespace Chatbot

/-- Claim C8: for a user with an existing session, `clear_conversation`
empties the messages and resets `last_activity` to the call time, leaves the
store entry present (Active-empty, not Absent), returns `True`, and leaves
every other user's state and the `conversations` key set untouched. -/
theorem claim_C8_clear (svc : MemoryService) (now : Int) (u : String)
    (st : ConversationState)
    (hget : dictGet svc.conversation_states u = some st) :
    (clear_conversation svc now u).2 = true ∧
    dictGet (clear_conversation svc now u).1.conversation_states u =
      some { st with messages := [], last_activity := now } ∧
    (clear_conversation svc now u).1.conversations = svc.conversations ∧
    (clear_conversation svc now u).1.settings = svc.settings ∧
    ∀ v, v ≠ u →
      dictGet (clear_conversation svc now u).1.conversation_states v =
        dictGet svc.conversation_states v := by
  have hany := any_key_of_dictGet_some _ _ _ hget
  simp only [clear_conversation]
  rw [if_pos hany]
  refine ⟨by trivial, ?_, by trivial, by trivial, ?_⟩
  · show dictGet (dictModify svc.conversation_states u
      fun state => { state with messages := [], last_activity := now }) u =
      some { st with messages := [], last_activity := now }
    rw [dictGet_dictModify_self, hget]
    rfl
  · intro v hv
    show dictGet (dictModify svc.conversation_states u
      fun state => { state with messages := [], last_activity := now }) v =
      dictGet svc.conversation_states v
    exact dictGet_dictModify_ne _ _ _ _ hv

/-- Witness for the clear claim at the concrete state `svcC1`. -/
theorem claim_C8_clear_witness :
    (clear_conversation svcC1 5 "u").2 = true ∧
    dictGet (clear_conversation svcC1 5 "u").1.conversation_states "u" =
      some { user_id := "u", messages := [], last_activity := 5 } ∧
    (clear_conversation svcC1 5 "u").1.conversations =
      svcC1.conversations ∧
    (clear_conversation svcC1 5 "u").1.settings = svcC1.settings ∧
    ∀ v, v ≠ "u" →
      dictGet (clear_conversation svcC1 5 "u").1.conversation_states v =
        dictGet svcC1.conversation_states v :=
  claim_C8_clear svcC1 5 "u"
    { user_id := "u"
      messages :=
        [{ type := "human", content := "hello", timestamp := 0 },
         { type := "ai", content := "hi there", timestamp := 0 }]
      last_activity := 0 }
    (by decide)

end Chatbot

namespace Chatbot

theorem mem_dictSet (p : String × ConversationState)
    (l : List (String × ConversationState)) (k : String)
    (v : ConversationState) (h : p ∈ dictSet l k v) :
    p ∈ l ∨ p = (k, v) := by
  unfold dictSet at h
  by_cases hany : (l.any fun q => q.1 = k) = true
  · rw [if_pos hany] at h
    obtain ⟨q, hq, hqe⟩ := List.mem_map.mp h
    by_cases hk : q.1 = k
    · right; rw [if_pos hk] at hqe; exact hqe.symm
    · left; rw [if_neg hk] at hqe; exact hqe ▸ hq
  · rw [if_neg hany] at h
    rcases List.mem_append.mp h with hl | hr
    · exact Or.inl hl
    · right; simpa using hr

theorem mem_dictModify (p : String × ConversationState)
    (l : List (String × ConversationState)) (k : String)
    (f : ConversationState → ConversationState) (h : p ∈ dictModify l k f) :
    p ∈ l ∨ ∃ q ∈ l, p = (q.1, f q.2) := by
  unfold dictModify at h
  obtain ⟨q, hq, hqe⟩ := List.mem_map.mp h
  by_cases hk : q.1 = k
  · right; rw [if_pos hk] at hqe; exact ⟨q, hq, hqe.symm⟩
  · left; rw [if_neg hk] at hqe; exact hqe ▸ hq

theorem mem_dictDel (p : String × ConversationState)
    (l : List (String × ConversationState)) (k : String)
    (h : p ∈ dictDel l k) : p ∈ l :=
  List.mem_of_mem_filter h

theorem even_min (a b : Nat) (ha : Even a) (hb : Even b) : Even (min a b) := by
  rcases Nat.le_total a b with h | h
  · rwa [min_eq_left h]
  · rwa [min_eq_right h]

theorem even_trim (k : Nat) (hk : Even k) (l : List Message)
    (hl : Even l.length) :
    Even (if l.length > k then pySliceLast l k else l).length := by
  by_cases hlen : l.length > k
  · rw [if_pos hlen]
    unfold pySliceLast
    by_cases hzero : k = 0
    · rwa [if_pos hzero]
    · rw [if_neg hzero]
      simp only [List.length_reverse, List.length_take]
      exact even_min k l.length hk hl
  · rwa [if_neg hlen]

theorem evenStore_cleanup (svc : MemoryService) (u : String)
    (h : EvenStore svc) : EvenStore (cleanup_conversation svc u) := by
  intro p hp
  exact h p (mem_dictDel p _ u hp)

theorem evenStore_foldl_cleanup (users : List String) :
    ∀ (svc : MemoryService), EvenStore svc →
    EvenStore (users.foldl (fun s v => cleanup_conversation s v) svc) := by
  induction users with
  | nil => intro svc h; exact h
  | cons v rest ih =>
      intro svc h
      exact ih (cleanup_conversation svc v) (evenStore_cleanup svc v h)

theorem evenStore_get_or_create (svc : MemoryService) (now : Int)
    (u : String) (h : EvenStore svc) :
    EvenStore (get_or_create_memory svc now u) := by
  unfold get_or_create_memory
  by_cases hcond : u ∈ svc.conversations ∧
      is_conversation_active svc now u = true
  · rwa [if_pos hcond]
  · rw [if_neg hcond]
    intro p hp
    have hp' : p ∈ dictSet
        (if u ∈ svc.conversations then cleanup_conversation svc u
          else svc).conversation_states u (freshState u now) := hp
    rcases mem_dictSet p _ u _ hp' with hmem | heq
    · by_cases hc : u ∈ svc.conversations
      · rw [if_pos hc] at hmem
        exact evenStore_cleanup svc u h p hmem
      · rw [if_neg hc] at hmem
        exact h p hmem
    · rw [heq]
      simp [freshState]

theorem even_appendExchange (M : Nat) (now : Int) (hm ar : String)
    (st : ConversationState) (h : Even st.messages.length) :
    Even (appendExchange M now hm ar st).messages.length := by
  rw [appendExchange_eq]
  show Even (if (st.messages ++ exchangeMsgs now hm ar).length > M * 2 then
      pySliceLast (st.messages ++ exchangeMsgs now hm ar) (M * 2)
    else st.messages ++ exchangeMsgs now hm ar).length
  apply even_trim
  · exact ⟨M, by ring⟩
  · rw [List.length_append]
    show Even (st.messages.length + 2)
    obtain ⟨r, hr⟩ := h
    exact ⟨r + 1, by omega⟩

theorem evenStore_add_message (svc : MemoryService) (now : Int)
    (u hm ar : String) (h : EvenStore svc) :
    EvenStore (add_message svc now u hm ar).1 := by
  have h1 := evenStore_get_or_create svc now u h
  simp only [add_message]
  by_cases hany : ((get_or_create_memory svc now u).conversation_states.any
      fun p => p.1 = u) = true
  · rw [if_pos hany]
    intro p hp
    have hp2 : p ∈ dictModify
        (get_or_create_memory svc now u).conversation_states u
        (appendExchange
          (get_or_create_memory svc now u).settings.max_conversation_history
          now hm ar) := hp
    rcases mem_dictModify p _ u _ hp2 with hmem | ⟨q, hq, heq⟩
    · exact h1 p hmem
    · rw [heq]
      show Even (appendExchange
        (get_or_create_memory svc now u).settings.max_conversation_history
        now hm ar q.2).messages.length
      exact even_appendExchange _ now hm ar q.2 (h1 q hq)
  · rw [if_neg hany]
    exact h1

theorem evenStore_clear (svc : MemoryService) (now : Int) (u : String)
    (h : EvenStore svc) : EvenStore (clear_conversation svc now u).1 := by
  simp only [clear_conversation]
  by_cases hany : (svc.conversation_states.any fun p => p.1 = u) = true
  · rw [if_pos hany]
    intro p hp
    have hp2 : p ∈ dictModify svc.conversation_states u
        (fun state =>
          { state with messages := [], last_activity := now }) := hp
    rcases mem_dictModify p _ u _ hp2 with hmem | ⟨q, hq, heq⟩
    · exact h p hmem
    · rw [heq]
      simp
  · rw [if_neg hany]
    exact h

theorem evenStore_sweep (svc : MemoryService) (now : Int)
    (h : EvenStore svc) :
    EvenStore (cleanup_expired_conversations svc now) := by
  unfold cleanup_expired_conversations
  exact evenStore_foldl_cleanup _ svc h

theorem evenStore_runOp (svc : MemoryService) (op : StoreOp)
    (h : EvenStore svc) : EvenStore (runOp svc op) := by
  cases op with
  | addMsg now u hm ar => exact evenStore_add_message svc now u hm ar h
  | clearConv now u => exact evenStore_clear svc now u h
  | sweepExpired now => exact evenStore_sweep svc now h
  | getOrCreate now u => exact evenStore_get_or_create svc now u h

theorem evenStore_runOps (ops : List StoreOp) :
    ∀ (svc : MemoryService), EvenStore svc → EvenStore (runOps svc ops) := by
  induction ops with
  | nil => intro svc h; exact h
  | cons op rest ih =>
      intro svc h
      exact ih (runOp svc op) (evenStore_runOp svc op h)

theorem evenStore_init (settings : Settings) :
    EvenStore (initService settings) := by
  intro p hp
  cases hp

theorem pairUp_length : ∀ (l : List Message),
    (pairUp l).length = l.length / 2
  | [] => by simp [pairUp]
  | [_] => by simp [pairUp]
  | _ :: _ :: rest => by
      simp only [pairUp, List.length_cons, pairUp_length rest]
      omega

end Chatbot

namespace Chatbot

/-- Claim C10 (implicit): in every service state reachable by the public
operations from an empty store, each user's stored message list has even
length (each successful append adds exactly two entries — the human message
then the ai message), and the `message_count` field of
`get_conversation_summary` is `len(state.messages)`, i.e. twice the number
of recorded exchanges, not the number of exchanges. -/
theorem claim_C10_message_count (settings : Settings) (ops : List StoreOp)
    (now : Int) (u : String) (st : ConversationState)
    (hget :
      dictGet (runOps (initService settings) ops).conversation_states u =
        some st) :
    Even st.messages.length ∧
    (get_conversation_summary (runOps (initService settings) ops) now
        u).message_count = 2 * (pairUp st.messages).length := by
  have heven : EvenStore (runOps (initService settings) ops) :=
    evenStore_runOps ops (initService settings) (evenStore_init settings)
  obtain ⟨q, hqmem, _, hq2⟩ := mem_key_of_dictGet_some _ _ _ hget
  have hst : Even st.messages.length := hq2 ▸ heven q hqmem
  refine ⟨hst, ?_⟩
  unfold get_conversation_summary
  rw [hget]
  show st.messages.length = 2 * (pairUp st.messages).length
  rw [pairUp_length]
  obtain ⟨r, hr⟩ := hst
  omega

/-- Witness for the even-length/summary claim after one append. -/
theorem claim_C10_message_count_witness :
    Even ({ user_id := "u", messages := exchangeMsgs 0 "q" "r", last_activity := 0 } : ConversationState).messages.length ∧
    (get_conversation_summary
        (runOps (initService settingsEx) [StoreOp.addMsg 0 "u" "q" "r"]) 0
        "u").message_count =
      2 * (pairUp ({ user_id := "u", messages := exchangeMsgs 0 "q" "r", last_activity := 0 } : ConversationState).messages).length :=
  claim_C10_message_count settingsEx [StoreOp.addMsg 0 "u" "q" "r"] 0 "u"
    { user_id := "u", messages := exchangeMsgs 0 "q" "r", last_activity := 0 }
    (by decide)

/-- Claim C4: the confidence scorer agrees with the spec's reference
definition `scoreSpec`; empty chunks give exactly `0`; the result always
lies in `[0, 0.95]`.  As a pure function of its arguments it is
deterministic with no side effects; the defensive except branch returning
`0.5` is unreachable from this pure arithmetic. -/
theorem claim_C4_confidence (documents : List Document) (question : String) :
    calculate_confidence documents question = scoreSpec documents question ∧
    (documents = [] → calculate_confidence documents question = 0) ∧
    0 ≤ calculate_confidence documents question ∧
    calculate_confidence documents question ≤ 95 / 100 := by
  refine ⟨?_, ?_, ?_, ?_⟩
  · unfold calculate_confidence scoreSpec keywordOverlap questionWords
      docWords pySet
    cases documents with
    | nil => simp
    | cons d ds =>
        rw [if_neg (by simp), if_neg (by simp)]
        congr 1
        congr 1
        · congr 1
          ring
        · congr 1
          ring
  · intro h
    subst h
    rfl
  · unfold calculate_confidence
    by_cases hd : documents.isEmpty
    · rw [if_pos hd]
    · rw [if_neg hd]
      refine le_min (by norm_num) ?_
      have h1 : (0:ℚ) ≤
          min (8/10) (3/10 + (documents.length : ℚ) * (1/10)) :=
        le_min (by norm_num) (by positivity)
      have h2 : (0:ℚ) ≤ min (2/10)
          ((keywordOverlap documents question : ℚ) * (2/100)) :=
        le_min (by norm_num) (by positivity)
      linarith
  · unfold calculate_confidence
    by_cases hd : documents.isEmpty
    · rw [if_pos hd]
      norm_num
    · rw [if_neg hd]
      exact min_le_left _ _

/-- Witness for the confidence claim: evaluates the scorer at a concrete
query and document. -/
theorem claim_C4_confidence_witness :
    calculate_confidence [docEx] "refund policy" =
      scoreSpec [docEx] "refund policy" ∧
    calculate_confidence [] "refund policy" = 0 ∧
    0 ≤ calculate_confidence [docEx] "refund policy" ∧
    calculate_confidence [docEx] "refund policy" ≤ 95 / 100 :=
  ⟨(claim_C4_confidence [docEx] "refund policy").1,
   (claim_C4_confidence [] "refund policy").2.1 rfl,
   (claim_C4_confidence [docEx] "refund policy").2.2.1,
   (claim_C4_confidence [docEx] "refund policy").2.2.2⟩

end Chatbot

namespace Chatbot

/-- Claim C7: when initialization has not completed, `process_message`
returns the fixed unavailable Response with confidence `0`, leaves the whole
service state untouched, and performs no store or collaborator action at all
(empty event trace: no history read, no Retriever or Generator call, no
append, no sweep). -/
theorem claim_C7_uninitialized (svc : ChatbotService) (now : Int)
    (u m : String) (retriever : Option (List Document))
    (generator : Option String) (h : svc.is_initialized = false) :
    process_message svc now u m retriever generator =
      ({ response := unavailableText, confidence := some 0, sources := none },
       svc, []) := by
  unfold process_message
  rw [if_pos]
  rw [h]
  simp

/-- Witness for the uninitialized short-circuit at a concrete state. -/
theorem claim_C7_uninitialized_witness :
    process_message cbUninit 0 "u" "hello" (some [docEx]) (some "reply") =
      ({ response := unavailableText, confidence := some 0, sources := none },
       cbUninit, []) :=
  claim_C7_uninitialized cbUninit 0 "u" "hello" (some [docEx])
    (some "reply") rfl

/-- Claim C2: on an initialized orchestrator, every `process_message` call —
grounded, fallback, or degraded by a Generator failure — appends the pair
`(message, response_text)` to the store and then sweeps expired sessions;
the event trace is exactly historyRead, retrieverCall, generatorCall,
append, sweep, and the post-state is the sweep applied to the post-append
store. -/
theorem claim_C2_record_and_sweep (svc : ChatbotService) (now : Int)
    (u m : String) (retriever : Option (List Document))
    (generator : Option String) (h : svc.is_initialized = true) :
    (process_message svc now u m retriever generator).2.2 =
      [Event.historyRead, Event.retrieverCall, Event.generatorCall,
       Event.append m
         (process_message svc now u m retriever generator).1.response,
       Event.sweep] ∧
    (process_message svc now u m retriever generator).2.1.memory_service =
      cleanup_expired_conversations
        (add_message svc.memory_service now u m
          (process_message svc now u m retriever generator).1.response).1
        now := by
  unfold process_message
  rw [if_neg (by rw [h]; simp)]
  exact ⟨rfl, rfl⟩

/-- Witness for the record-and-sweep claim at a concrete run. -/
theorem claim_C2_record_and_sweep_witness :
    (process_message cbEx 0 "u" "hi" (some []) none).2.2 =
      [Event.historyRead, Event.retrieverCall, Event.generatorCall,
       Event.append "hi"
         (process_message cbEx 0 "u" "hi" (some []) none).1.response,
       Event.sweep] ∧
    (process_message cbEx 0 "u" "hi" (some []) none).2.1.memory_service =
      cleanup_expired_conversations
        (add_message cbEx.memory_service 0 "u" "hi"
          (process_message cbEx 0 "u" "hi" (some []) none).1.response).1
        0 :=
  claim_C2_record_and_sweep cbEx 0 "u" "hi" (some []) none rfl

/-- Claim C6: when the Retriever returns an empty chunk list on an
initialized orchestrator, `process_message` takes the fallback path: the
Response has confidence exactly `0.3`, an empty source list, and the
fallback-generated text. -/
theorem claim_C6_fallback (svc : ChatbotService) (now : Int) (u m : String)
    (generator : Option String) (h : svc.is_initialized = true) :
    (process_message svc now u m (some []) generator).1.confidence =
      some (3/10) ∧
    (process_message svc now u m (some []) generator).1.sources = some [] ∧
    (process_message svc now u m (some []) generator).1.response =
      generate_fallback_response generator := by
  unfold process_message
  rw [if_neg (by rw [h]; simp)]
  exact ⟨rfl, rfl, rfl⟩

/-- Witness for the fallback claim at a concrete run. -/
theorem claim_C6_fallback_witness :
    (process_message cbEx 0 "u" "asdkjasd" (some []) (some "sorry, no data")
        ).1.confidence = some (3/10) ∧
    (process_message cbEx 0 "u" "asdkjasd" (some []) (some "sorry, no data")
        ).1.sources = some [] ∧
    (process_message cbEx 0 "u" "asdkjasd" (some []) (some "sorry, no data")
        ).1.response =
      generate_fallback_response (some "sorry, no data") :=
  claim_C6_fallback cbEx 0 "u" "asdkjasd" (some "sorry, no data") rfl

/-- Claim C3 counterexample: with the Generator failing on the fallback path
(Retriever returned no chunks), the returned confidence is `0.3`, not `0.0`
as the claim demands for every Generator failure. -/
theorem claim_C3_counterexample :
    (process_message cbEx 0 "u" "hi" (some []) none).1.confidence =
      some (3/10) ∧
    ((3 : ℚ)/10) ≠ 0 := by
  constructor
  · rfl
  · norm_num

/-- Claim C3 (amended): if the Generator fails, `process_message` still
returns a Response — the model is a total function, no exception escapes —
but the confidence depends on the path: on the grounded path (Retriever
produced documents) the degraded response has confidence exactly `0`; on
the fallback path (no documents) the fixed ceiling `0.3` applies even
though the Generator failed, with the basic fallback text. -/
theorem claim_C3_generator_failure (svc : ChatbotService) (now : Int)
    (u m : String) (retriever : Option (List Document))
    (h : svc.is_initialized = true) :
    ((retriever.getD []).isEmpty = false →
      (process_message svc now u m retriever none).1.confidence = some 0 ∧
      (process_message svc now u m retriever none).1.response =
        groundedErrorText ∧
      (process_message svc now u m retriever none).1.sources = some []) ∧
    ((retriever.getD []).isEmpty = true →
      (process_message svc now u m retriever none).1.confidence =
        some (3/10) ∧
      (process_message svc now u m retriever none).1.response =
        fallbackErrorText) := by
  unfold process_message
  rw [if_neg (by rw [h]; simp)]
  constructor
  · intro hne
    refine ⟨?_, ?_, ?_⟩ <;>
      simp [hne, generate_response_with_context]
  · intro he
    refine ⟨?_, ?_⟩ <;>
      simp [he, generate_fallback_response, fallbackErrorText]

/-- Witness for the generator-failure claim: a grounded run (one document)
and a fallback run (no documents), both with the Generator failing. -/
theorem claim_C3_generator_failure_witness :
    ((process_message cbEx 0 "u" "q" (some [docEx]) none).1.confidence =
        some 0 ∧
      (process_message cbEx 0 "u" "q" (some [docEx]) none).1.response =
        groundedErrorText ∧
      (process_message cbEx 0 "u" "q" (some [docEx]) none).1.sources =
        some []) ∧
    ((process_message cbEx 0 "u" "q" (some []) none).1.confidence =
        some (3/10) ∧
      (process_message cbEx 0 "u" "q" (some []) none).1.response =
        fallbackErrorText) :=
  ⟨(claim_C3_generator_failure cbEx 0 "u" "q" (some [docEx]) rfl).1 rfl,
   (claim_C3_generator_failure cbEx 0 "u" "q" (some []) rfl).2 rfl⟩

end Chatbot
